import Mathlib

/-!
# Folder resource of the BIG-IP provider

Shallow embedding of `bigip/resource_bigip_sys_folder.go`.

* The host SDK's `schema.ResourceData` is a typed attribute store with an
  identifier slot.  Every declared attribute always holds a value of its
  declared type: `Get` returns that value and `Set` refuses a value of another
  type, leaving the store as it was.
* A Go type assertion `x.(string)` on a value that is not a string panics;
  a handler that panics returns `none`.
* The remote client `*bigip.BigIP` is a deterministic state machine over an
  arbitrary state type; every call the handlers issue is appended to a trace.
* A Go `error` is represented by its message, `nil` by `none`.
* `log.Printf` and `log.Println` only write to the log and are left out.
-/

set_option autoImplicit false

namespace bigip

/-! ## Values, errors and diagnostics -/

/-- Go error value, represented by the text of its message. -/
abbrev GoError := String

/-- Dynamic values (`interface{}`) that the attribute getter can return.
The elements of a list are kept as strings. -/
inductive Value where
  | nil
  | str (s : String)
  | list (xs : List String)
  deriving DecidableEq, Repr

/-- Attribute types used by the schema of this resource. -/
inductive ValueType where
  | TypeString
  | TypeList
  deriving DecidableEq, Repr

/-- Zero value of an attribute type, returned for an attribute never set. -/
def ValueType.zero : ValueType → Value
  | .TypeString => .str ""
  | .TypeList => .list []

/-- Dynamic type of a value, `none` for the nil interface. -/
def Value.kind : Value → Option ValueType
  | .nil => none
  | .str _ => some .TypeString
  | .list _ => some .TypeList

/-- Type assertion `v.(string)`: `none` stands for the run-time panic. -/
def Value.assertString : Value → Option String
  | .str s => some s
  | _ => none

/-- Severity of a diagnostic. -/
inductive Severity where
  | Error
  | Warning
  deriving DecidableEq, Repr

/-- One diagnostic returned to the host. -/
structure Diagnostic where
  Severity : Severity
  Summary : String
  deriving DecidableEq, Repr

/-- Diagnostics returned by a lifecycle handler; the empty list is Go's `nil`. -/
abbrev Diagnostics := List Diagnostic

/-- Wrapping of an error as diagnostics: `diag.FromErr(err)`. -/
def diag.FromErr (err : GoError) : Diagnostics :=
  [{ Severity := .Error, Summary := err }]

/-- Text `part` occurs inside text `msg`. -/
def Contains (msg part : String) : Prop := part.data <:+: msg.data

instance (msg part : String) : Decidable (Contains msg part) := by
  unfold Contains; infer_instance

/-! ## Attribute schema -/

/-- Declaration of one attribute: the fields of `schema.Schema` the resource
sets, the `Description` texts apart. -/
structure Schema where
  Type_ : ValueType
  Required : Bool := false
  Optional : Bool := false
  ForceNew : Bool := false
  Default : Option Value := none
  Elem : Option ValueType := none
  deriving DecidableEq, Repr

/-- Whether the host can read the configured value of an attribute: a list
attribute declared without element type takes only the empty list, since the
elements of a list are read through `Elem`. -/
def Schema.elemsKnown (s : Schema) (v : Option Value) : Bool :=
  match s.Type_, s.Elem, v with
  | .TypeList, none, some (.list (_ :: _)) => false
  | _, _, _ => true

/-- Attribute map of `resourceBigipSysFolder` (lines 28-69). -/
def resourceBigipSysFolderSchema : List (String × Schema) :=
  [ ("name", { Type_ := .TypeList, Required := true, ForceNew := true }),
    ("appService", { Type_ := .TypeString, Optional := true }),
    ("description", { Type_ := .TypeString, Optional := true }),
    ("deviceGroup", { Type_ := .TypeString, Optional := true, Default := some (.str "default") }),
    ("hidden", { Type_ := .TypeString, Optional := true, Default := some (.str "false") }),
    ("noRefCheck", { Type_ := .TypeString, Optional := true, Default := some (.str "") }),
    ("trafficGroup", { Type_ := .TypeString, Optional := true, Default := some (.str "default") }) ]

/-- Host-side validation of a configuration block against an attribute map:
every configured key is declared and carries a value of the declared type, and
every required key is configured. -/
def schemaAccepts (schema : List (String × Schema)) (raw : List (String × Value)) : Bool :=
  raw.all (fun kv =>
    match schema.lookup kv.1 with
    | some s => decide (kv.2.kind = some s.Type_)
    | none => false)
  && schema.all (fun ks => !ks.2.Required || (raw.lookup ks.1).isSome)

/-! ## Local resource state -/

/-- Local state record of the host: identifier slot and attribute store. -/
structure ResourceData where
  id : String
  attrs : List (String × Value)
  deriving DecidableEq, Repr

namespace ResourceData

/-- Identifier getter `d.Id()`. -/
def Id (d : ResourceData) : String := d.id

/-- Identifier setter `d.SetId(v)`. -/
def SetId (d : ResourceData) (v : String) : ResourceData := { d with id := v }

/-- Attribute getter `d.Get(key)`; an undeclared key yields the nil interface. -/
def Get (d : ResourceData) (key : String) : Value :=
  match d.attrs.lookup key with
  | some v => v
  | none => .nil

/-- Attribute setter `d.Set(key, value)`: stores the value when the attribute is
declared and the value has its type; otherwise reports an error and stores
nothing. -/
def Set (d : ResourceData) (key : String) (value : Value) : ResourceData × Option GoError :=
  match d.attrs.lookup key with
  | none => (d, some ("Invalid address to set: " ++ key))
  | some old =>
    if old.kind = value.kind then
      ({ d with attrs := d.attrs.map (fun kv => (kv.1, if kv.1 = key then value else kv.2)) }, none)
    else
      (d, some (key ++ ": value of the wrong type"))

/-- State record the host builds for a configuration block.  No record is built
when the schema does not accept the block, or when a list attribute declared
without element type is given elements.  Otherwise each declared attribute
holds the configured value, else its declared default, else the zero value of
its type, and the identifier slot is empty. -/
def ofConfig (schema : List (String × Schema)) (raw : List (String × Value)) :
    Option ResourceData :=
  if schemaAccepts schema raw && schema.all (fun ks => ks.2.elemsKnown (raw.lookup ks.1)) then
    some { id := "",
           attrs := schema.map (fun ks =>
             (ks.1, match raw.lookup ks.1 with
                    | some v => v
                    | none => ks.2.Default.getD ks.2.Type_.zero)) }
  else
    none

/-- State record of a schema: every declared attribute holds a value of its
declared type. -/
def conforms (schema : List (String × Schema)) (d : ResourceData) : Bool :=
  schema.all (fun ks => decide ((d.Get ks.1).kind = some ks.2.Type_))

end ResourceData

/-! ## Remote client -/

/-- Remote folder object: the fields of `bigip.Folder` the resource uses. -/
structure Folder where
  Name : String
  AppService : String
  Description : String
  DeviceGroup : String
  Hidden : String
  NoRefCheck : String
  TrafficGroup : String
  deriving DecidableEq, Repr

/-- Remote call issued through the client. -/
inductive Call where
  | AddFolder (config : Folder)
  | GetFolder (name : String)
  | ModifyFolder (name : String) (config : Folder)
  | DeleteFolder (name : String)
  deriving DecidableEq, Repr

/-- Test whether a call is an `AddFolder` call. -/
def Call.isAdd : Call → Bool
  | .AddFolder _ => true
  | _ => false

/-- Test whether a call is a `ModifyFolder` call. -/
def Call.isModify : Call → Bool
  | .ModifyFolder _ _ => true
  | _ => false

/-- Test whether a call is a `DeleteFolder` call. -/
def Call.isDelete : Call → Bool
  | .DeleteFolder _ => true
  | _ => false

/-- Client handle `*bigip.BigIP`: the behaviour of the four remote methods as
transitions of the remote state, the current remote state, and the trace of
calls issued so far. -/
structure BigIP (σ : Type) where
  onAdd : Folder → σ → Option GoError × σ
  onGet : String → σ → (Option Folder × Option GoError) × σ
  onModify : String → Folder → σ → Option GoError × σ
  onDelete : String → σ → Option GoError × σ
  state : σ
  calls : List Call

namespace BigIP

variable {σ : Type}

/-- Remote call `client.AddFolder(config)`. -/
def AddFolder (client : BigIP σ) (config : Folder) : Option GoError × BigIP σ :=
  let r := client.onAdd config client.state
  (r.1, { client with state := r.2, calls := client.calls ++ [Call.AddFolder config] })

/-- Remote call `client.GetFolder(name)`. -/
def GetFolder (client : BigIP σ) (name : String) : (Option Folder × Option GoError) × BigIP σ :=
  let r := client.onGet name client.state
  (r.1, { client with state := r.2, calls := client.calls ++ [Call.GetFolder name] })

/-- Remote call `client.ModifyFolder(name, config)`. -/
def ModifyFolder (client : BigIP σ) (name : String) (config : Folder) :
    Option GoError × BigIP σ :=
  let r := client.onModify name config client.state
  (r.1, { client with state := r.2, calls := client.calls ++ [Call.ModifyFolder name config] })

/-- Remote call `client.DeleteFolder(name)`. -/
def DeleteFolder (client : BigIP σ) (name : String) : Option GoError × BigIP σ :=
  let r := client.onDelete name client.state
  (r.1, { client with state := r.2, calls := client.calls ++ [Call.DeleteFolder name] })

/-- Client after a call that moved the remote state to `s` and logged `call`. -/
def after (meta : BigIP σ) (s : σ) (call : Call) : BigIP σ :=
  { meta with state := s, calls := meta.calls ++ [call] }

end BigIP

/-! ## Lifecycle handlers -/

/-- What a handler leaves behind: the local state record, the client, and the
diagnostics it returns. -/
structure Outcome (σ : Type) where
  d : ResourceData
  client : BigIP σ
  diags : Diagnostics

variable {σ : Type}

/-- Existence check `resourceSysFolderExists` (lines 112-129). -/
def resourceSysFolderExists (d : ResourceData) (meta : BigIP σ) :
    (Bool × Option GoError) × BigIP σ :=
  let client := meta
  let name := d.Id
  match client.GetFolder name with
  | ((node, err), client) =>
    match err with
    | some e => ((false, some e), client)
    | none =>
      match node with
      | none => ((false, none), client)
      | some _ => ((true, none), client)

/-- Read handler `resourceBigipSysFolderRead` (lines 154-180). -/
def resourceBigipSysFolderRead (d : ResourceData) (meta : BigIP σ) : Option (Outcome σ) :=
  let client := meta
  let name := d.Id
  match client.GetFolder name with
  | ((folder, err), client) =>
    match err with
    | some e => some { d := d, client := client, diags := diag.FromErr e }
    | none =>
      match folder with
      | none => some { d := d.SetId "", client := client, diags := [] }
      | some folder =>
        let d := (d.Set "name" (.str folder.Name)).1
        let d := (d.Set "appService" (.str folder.AppService)).1
        let d := (d.Set "description" (.str folder.Description)).1
        let d := (d.Set "deviceGroup" (.str folder.DeviceGroup)).1
        let d := (d.Set "hidden" (.str folder.Hidden)).1
        let d := (d.Set "noRefCheck" (.str folder.NoRefCheck)).1
        let d := (d.Set "trafficGroup" (.str folder.TrafficGroup)).1
        some { d := d, client := client, diags := [] }

/-- Create handler `resourceBigipSysFolderCreate` (lines 74-109). -/
def resourceBigipSysFolderCreate (d : ResourceData) (meta : BigIP σ) : Option (Outcome σ) := do
  let client := meta
  let name ← (d.Get "name").assertString
  let appService ← (d.Get "appService").assertString
  let description ← (d.Get "description").assertString
  let deviceGroup ← (d.Get "deviceGroup").assertString
  let hidden ← (d.Get "hidden").assertString
  let noRefCheck ← (d.Get "noRefCheck").assertString
  let trafficGroup ← (d.Get "trafficGroup").assertString
  let folderConfig : Folder :=
    { Name := name, AppService := appService, Description := description,
      DeviceGroup := deviceGroup, Hidden := hidden, NoRefCheck := noRefCheck,
      TrafficGroup := trafficGroup }
  let d := d.SetId name
  match resourceSysFolderExists d client with
  | ((exists_, _), client) =>
    if !exists_ then
      match client.AddFolder folderConfig with
      | (some err, client) =>
        some { d := d.SetId "", client := client,
               diags := diag.FromErr ("error creating Folder " ++ name ++ "; " ++ err) }
      | (none, client) => resourceBigipSysFolderRead d client
    else
      resourceBigipSysFolderRead d client

/-- Update handler `resourceBigipSysFolderUpdate` (lines 133-152). -/
def resourceBigipSysFolderUpdate (d : ResourceData) (meta : BigIP σ) : Option (Outcome σ) := do
  let client := meta
  let name := d.Id
  let fName ← (d.Get "name").assertString
  let fAppService ← (d.Get "appService").assertString
  let fDescription ← (d.Get "description").assertString
  let fDeviceGroup ← (d.Get "deviceGroup").assertString
  let fHidden ← (d.Get "hidden").assertString
  let fNoRefCheck ← (d.Get "noRefCheck").assertString
  let fTrafficGroup ← (d.Get "trafficGroup").assertString
  let folderConfig : Folder :=
    { Name := fName, AppService := fAppService, Description := fDescription,
      DeviceGroup := fDeviceGroup, Hidden := fHidden, NoRefCheck := fNoRefCheck,
      TrafficGroup := fTrafficGroup }
  match client.ModifyFolder name folderConfig with
  | (some err, client) =>
    some { d := d, client := client,
           diags := diag.FromErr ("Error modifying Folder " ++ name ++ ": " ++ err) }
  | (none, client) => resourceBigipSysFolderRead d client

/-- Delete handler `resourceBigipSysFolderDelete` (lines 182-195). -/
def resourceBigipSysFolderDelete (d : ResourceData) (meta : BigIP σ) : Option (Outcome σ) :=
  let client := meta
  let name := d.Id
  match client.DeleteFolder name with
  | (some err, client) => some { d := d, client := client, diags := diag.FromErr err }
  | (none, client) => some { d := d.SetId "", client := client, diags := [] }

/-- Resource declaration `schema.Resource`: the four handlers and the attribute
map; the importer, which passes the identifier through to read, is left out. -/
structure Resource (σ : Type) where
  CreateContext : ResourceData → BigIP σ → Option (Outcome σ)
  UpdateContext : ResourceData → BigIP σ → Option (Outcome σ)
  ReadContext : ResourceData → BigIP σ → Option (Outcome σ)
  DeleteContext : ResourceData → BigIP σ → Option (Outcome σ)
  Schema : List (String × Schema)

/-- Resource `resourceBigipSysFolder` (lines 19-72). -/
def resourceBigipSysFolder : Resource σ :=
  { CreateContext := resourceBigipSysFolderCreate,
    UpdateContext := resourceBigipSysFolderUpdate,
    ReadContext := resourceBigipSysFolderRead,
    DeleteContext := resourceBigipSysFolderDelete,
    Schema := resourceBigipSysFolderSchema }

/-! ## Concrete clients and records used as instances -/

/-- In-memory device: `AddFolder` stores the object it receives and `GetFolder`
returns the stored object of that name, or no object when there is none. -/
def memoryClient (folders : List Folder) : BigIP (List Folder) :=
  { onAdd := fun f s => (none, s ++ [f]),
    onGet := fun n s => ((s.find? (fun f => f.Name == n), none), s),
    onModify := fun n f s => (none, s.map (fun g => if g.Name = n then f else g)),
    onDelete := fun n s => (none, s.filter (fun g => g.Name != n)),
    state := folders,
    calls := [] }

/-- Client whose every remote call fails with the given error text. -/
def failingClient (msg : GoError) : BigIP Unit :=
  { onAdd := fun _ s => (some msg, s),
    onGet := fun _ s => ((none, some msg), s),
    onModify := fun _ _ s => (some msg, s),
    onDelete := fun _ s => (some msg, s),
    state := (),
    calls := [] }

/-- Client whose lookups fail with the given error text while `AddFolder`
succeeds. -/
def lookupFailingClient (msg : GoError) : BigIP Unit :=
  { onAdd := fun _ s => (none, s),
    onGet := fun _ s => ((none, some msg), s),
    onModify := fun _ _ s => (none, s),
    onDelete := fun _ s => (none, s),
    state := (),
    calls := [] }

/-- Folder of the scenario in the specification. -/
def myfolder : Folder :=
  { Name := "/Common/myfolder", AppService := "", Description := "",
    DeviceGroup := "default", Hidden := "false", NoRefCheck := "",
    TrafficGroup := "default" }

/-- Remote folder differing from the scenario's folder in every field but the name. -/
def driftedFolder : Folder :=
  { Name := "/Common/myfolder", AppService := "app", Description := "changed remotely",
    DeviceGroup := "none", Hidden := "true", NoRefCheck := "enabled",
    TrafficGroup := "traffic-group-1" }

/-- State record holding the scenario's folder in seven string attributes. -/
def myfolderData (id : String) : ResourceData :=
  { id := id,
    attrs := [("name", .str "/Common/myfolder"), ("appService", .str ""),
              ("description", .str ""), ("deviceGroup", .str "default"),
              ("hidden", .str "false"), ("noRefCheck", .str ""),
              ("trafficGroup", .str "default")] }

/-- Configuration block of the scenario with name given as a one-element list. -/
def myfolderRaw : List (String × Value) :=
  [("name", .list ["/Common/myfolder"])]

/-- Configuration block of the scenario as the specification writes it, with
name given as a string. -/
def scenarioRaw : List (String × Value) :=
  [("name", .str "/Common/myfolder"), ("hidden", .str "false"),
   ("deviceGroup", .str "default")]

/-- Configuration block with name given as the empty list. -/
def emptyNameRaw : List (String × Value) :=
  [("name", .list [])]

/-- State record of the declared schema: name holds the empty list, the other
six attributes hold their defaults or zero values. -/
def declaredData (id : String) : ResourceData :=
  { id := id,
    attrs := [("name", .list []), ("appService", .str ""), ("description", .str ""),
              ("deviceGroup", .str "default"), ("hidden", .str "false"),
              ("noRefCheck", .str ""), ("trafficGroup", .str "default")] }

/-- Client whose every lookup returns the given object and whose other calls
succeed. -/
def presentClient (f : Folder) : BigIP Unit :=
  { onAdd := fun _ s => (none, s),
    onGet := fun _ s => ((some f, none), s),
    onModify := fun _ _ s => (none, s),
    onDelete := fun _ s => (none, s),
    state := (),
    calls := [] }

/-- The seven attributes of a state record hold the fields of `c` as strings. -/
def ResourceData.HasConfig (d : ResourceData) (c : Folder) : Prop :=
  d.Get "name" = .str c.Name ∧ d.Get "appService" = .str c.AppService ∧
  d.Get "description" = .str c.Description ∧ d.Get "deviceGroup" = .str c.DeviceGroup ∧
  d.Get "hidden" = .str c.Hidden ∧ d.Get "noRefCheck" = .str c.NoRefCheck ∧
  d.Get "trafficGroup" = .str c.TrafficGroup

instance (d : ResourceData) (c : Folder) : Decidable (d.HasConfig c) := by
  unfold ResourceData.HasConfig; infer_instance

/-! ## Attribute store lemmas -/

theorem lookup_map_set (l : List (String × Value)) (k k' : String) (v : Value) :
    (l.map (fun kv => (kv.1, if kv.1 = k then v else kv.2))).lookup k' =
      if k' = k then (l.lookup k').map (fun _ => v) else l.lookup k' := by
  induction l with
  | nil => simp
  | cons a l ih =>
    obtain ⟨ka, va⟩ := a
    simp only [List.map_cons, List.lookup_cons]
    by_cases hk' : k' = ka
    · subst hk'
      by_cases hk : k' = k <;> simp [hk]
    · have h1 : (k' == ka) = false := by simpa using hk'
      simp only [h1]
      exact ih

theorem ResourceData.Get_eq_str_iff (d : ResourceData) (k s : String) :
    d.Get k = .str s ↔ d.attrs.lookup k = some (.str s) := by
  unfold ResourceData.Get
  cases h : d.attrs.lookup k <;> simp

theorem ResourceData.Set_str (d : ResourceData) (k s v : String) (h : d.Get k = .str s) :
    d.Set k (.str v) =
      ({ d with attrs := d.attrs.map (fun kv => (kv.1, if kv.1 = k then .str v else kv.2)) },
        none) := by
  rw [ResourceData.Get_eq_str_iff] at h
  simp [ResourceData.Set, h, Value.kind]

theorem ResourceData.Get_Set_str (d : ResourceData) (k k' s v : String)
    (h : d.Get k = .str s) :
    (d.Set k (.str v)).1.Get k' = if k' = k then .str v else d.Get k' := by
  rw [ResourceData.Set_str d k s v h]
  have h' := (ResourceData.Get_eq_str_iff d k s).1 h
  unfold ResourceData.Get
  simp only [lookup_map_set]
  by_cases hk : k' = k
  · subst hk; simp [h']
  · simp [hk]

theorem ResourceData.Id_Set (d : ResourceData) (k : String) (v : Value) :
    (d.Set k v).1.Id = d.Id := by
  unfold ResourceData.Set
  cases d.attrs.lookup k with
  | none => rfl
  | some old =>
    by_cases hq : old.kind = v.kind <;> simp [hq, ResourceData.Id]

/-! ## Text containment -/

theorem contains_middle (a n b : String) : Contains (a ++ n ++ b) n := by
  unfold Contains
  simp only [String.data_append]
  exact ⟨a.data, b.data, rfl⟩

theorem contains_inner (a n b e : String) : Contains (a ++ n ++ b ++ e) n := by
  unfold Contains
  simp only [String.data_append]
  exact ⟨a.data, b.data ++ e.data, by simp⟩

theorem contains_end (a e : String) : Contains (a ++ e) e := by
  unfold Contains
  simp only [String.data_append]
  exact ⟨a.data, [], by simp⟩

/-! ## Handler lemmas -/

theorem read_error_eq (d : ResourceData) (meta : BigIP σ) (folder : Option Folder)
    (e : GoError) (s1 : σ) (hget : meta.onGet d.Id meta.state = ((folder, some e), s1)) :
    resourceBigipSysFolderRead d meta =
      some { d := d, client := meta.after s1 (Call.GetFolder d.Id), diags := diag.FromErr e } := by
  simp [resourceBigipSysFolderRead, BigIP.GetFolder, hget, BigIP.after]

theorem read_absent_eq (d : ResourceData) (meta : BigIP σ) (s1 : σ)
    (hget : meta.onGet d.Id meta.state = ((none, none), s1)) :
    resourceBigipSysFolderRead d meta =
      some { d := d.SetId "", client := meta.after s1 (Call.GetFolder d.Id), diags := [] } := by
  simp [resourceBigipSysFolderRead, BigIP.GetFolder, hget, BigIP.after]

theorem read_found_eq (d : ResourceData) (meta : BigIP σ) (f : Folder) (s1 : σ)
    (hget : meta.onGet d.Id meta.state = ((some f, none), s1)) :
    resourceBigipSysFolderRead d meta =
      some { d := (((((((d.Set "name" (.str f.Name)).1.Set "appService"
                  (.str f.AppService)).1.Set "description" (.str f.Description)).1.Set
                  "deviceGroup" (.str f.DeviceGroup)).1.Set "hidden" (.str f.Hidden)).1.Set
                  "noRefCheck" (.str f.NoRefCheck)).1.Set "trafficGroup"
                  (.str f.TrafficGroup)).1,
             client := meta.after s1 (Call.GetFolder d.Id), diags := [] } := by
  simp [resourceBigipSysFolderRead, BigIP.GetFolder, hget, BigIP.after]

theorem read_calls (d : ResourceData) (meta : BigIP σ) :
    ∃ o, resourceBigipSysFolderRead d meta = some o ∧
      o.client.calls = meta.calls ++ [Call.GetFolder d.Id] ∧
      o.client.state = (meta.onGet d.Id meta.state).2 := by
  rcases h : meta.onGet d.Id meta.state with ⟨⟨folder, err⟩, s1⟩
  cases err with
  | some e => exact ⟨_, read_error_eq d meta folder e s1 h, rfl, rfl⟩
  | none =>
    cases folder with
    | none => exact ⟨_, read_absent_eq d meta s1 h, rfl, rfl⟩
    | some f => exact ⟨_, read_found_eq d meta f s1 h, rfl, rfl⟩

theorem HasConfig_Set_name (d : ResourceData) (c : Folder) (v : String)
    (hd : d.HasConfig c) :
    (d.Set "name" (.str v)).1.HasConfig { c with Name := v } := by
  obtain ⟨h1, h2, h3, h4, h5, h6, h7⟩ := hd
  have hg := fun k' => ResourceData.Get_Set_str d "name" k' _ v h1
  refine ⟨?_, ?_, ?_, ?_, ?_, ?_, ?_⟩ <;> rw [hg] <;> simp [*]

theorem HasConfig_Set_appService (d : ResourceData) (c : Folder) (v : String)
    (hd : d.HasConfig c) :
    (d.Set "appService" (.str v)).1.HasConfig { c with AppService := v } := by
  obtain ⟨h1, h2, h3, h4, h5, h6, h7⟩ := hd
  have hg := fun k' => ResourceData.Get_Set_str d "appService" k' _ v h2
  refine ⟨?_, ?_, ?_, ?_, ?_, ?_, ?_⟩ <;> rw [hg] <;> simp [*]

theorem HasConfig_Set_description (d : ResourceData) (c : Folder) (v : String)
    (hd : d.HasConfig c) :
    (d.Set "description" (.str v)).1.HasConfig { c with Description := v } := by
  obtain ⟨h1, h2, h3, h4, h5, h6, h7⟩ := hd
  have hg := fun k' => ResourceData.Get_Set_str d "description" k' _ v h3
  refine ⟨?_, ?_, ?_, ?_, ?_, ?_, ?_⟩ <;> rw [hg] <;> simp [*]

theorem HasConfig_Set_deviceGroup (d : ResourceData) (c : Folder) (v : String)
    (hd : d.HasConfig c) :
    (d.Set "deviceGroup" (.str v)).1.HasConfig { c with DeviceGroup := v } := by
  obtain ⟨h1, h2, h3, h4, h5, h6, h7⟩ := hd
  have hg := fun k' => ResourceData.Get_Set_str d "deviceGroup" k' _ v h4
  refine ⟨?_, ?_, ?_, ?_, ?_, ?_, ?_⟩ <;> rw [hg] <;> simp [*]

theorem HasConfig_Set_hidden (d : ResourceData) (c : Folder) (v : String)
    (hd : d.HasConfig c) :
    (d.Set "hidden" (.str v)).1.HasConfig { c with Hidden := v } := by
  obtain ⟨h1, h2, h3, h4, h5, h6, h7⟩ := hd
  have hg := fun k' => ResourceData.Get_Set_str d "hidden" k' _ v h5
  refine ⟨?_, ?_, ?_, ?_, ?_, ?_, ?_⟩ <;> rw [hg] <;> simp [*]

theorem HasConfig_Set_noRefCheck (d : ResourceData) (c : Folder) (v : String)
    (hd : d.HasConfig c) :
    (d.Set "noRefCheck" (.str v)).1.HasConfig { c with NoRefCheck := v } := by
  obtain ⟨h1, h2, h3, h4, h5, h6, h7⟩ := hd
  have hg := fun k' => ResourceData.Get_Set_str d "noRefCheck" k' _ v h6
  refine ⟨?_, ?_, ?_, ?_, ?_, ?_, ?_⟩ <;> rw [hg] <;> simp [*]

theorem HasConfig_Set_trafficGroup (d : ResourceData) (c : Folder) (v : String)
    (hd : d.HasConfig c) :
    (d.Set "trafficGroup" (.str v)).1.HasConfig { c with TrafficGroup := v } := by
  obtain ⟨h1, h2, h3, h4, h5, h6, h7⟩ := hd
  have hg := fun k' => ResourceData.Get_Set_str d "trafficGroup" k' _ v h7
  refine ⟨?_, ?_, ?_, ?_, ?_, ?_, ?_⟩ <;> rw [hg] <;> simp [*]

theorem sync_HasConfig (d : ResourceData) (c f : Folder) (hd : d.HasConfig c) :
    ((((((((d.Set "name" (.str f.Name)).1.Set "appService"
      (.str f.AppService)).1.Set "description" (.str f.Description)).1.Set
      "deviceGroup" (.str f.DeviceGroup)).1.Set "hidden" (.str f.Hidden)).1.Set
      "noRefCheck" (.str f.NoRefCheck)).1.Set "trafficGroup"
      (.str f.TrafficGroup)).1).HasConfig f := by
  have h := HasConfig_Set_trafficGroup _ _ f.TrafficGroup
    (HasConfig_Set_noRefCheck _ _ f.NoRefCheck
      (HasConfig_Set_hidden _ _ f.Hidden
        (HasConfig_Set_deviceGroup _ _ f.DeviceGroup
          (HasConfig_Set_description _ _ f.Description
            (HasConfig_Set_appService _ _ f.AppService
              (HasConfig_Set_name d c f.Name hd))))))
  exact h

theorem read_found_sync (d : ResourceData) (meta : BigIP σ) (c f : Folder) (s1 : σ)
    (hd : d.HasConfig c)
    (hget : meta.onGet d.Id meta.state = ((some f, none), s1)) :
    ∃ o, resourceBigipSysFolderRead d meta = some o ∧ o.diags = [] ∧ o.d.Id = d.Id ∧
      o.d.HasConfig f ∧ o.client.calls = meta.calls ++ [Call.GetFolder d.Id] ∧
      o.client.state = s1 := by
  refine ⟨_, read_found_eq d meta f s1 hget, rfl, ?_, sync_HasConfig d c f hd, rfl, rfl⟩
  simp only [ResourceData.Id_Set]

theorem exists_eq (d : ResourceData) (meta : BigIP σ) :
    resourceSysFolderExists d meta =
      ((decide ((meta.onGet d.Id meta.state).1.2 = none ∧
                (meta.onGet d.Id meta.state).1.1 ≠ none),
        (meta.onGet d.Id meta.state).1.2),
       meta.after (meta.onGet d.Id meta.state).2 (Call.GetFolder d.Id)) := by
  rcases h : meta.onGet d.Id meta.state with ⟨⟨folder, err⟩, s1⟩
  cases err <;> cases folder <;>
    simp [resourceSysFolderExists, BigIP.GetFolder, h, BigIP.after]

theorem create_eq (d : ResourceData) (meta : BigIP σ) (c : Folder) (hd : d.HasConfig c) :
    resourceBigipSysFolderCreate d meta =
      if (resourceSysFolderExists (d.SetId c.Name) meta).1.1 = true then
        resourceBigipSysFolderRead (d.SetId c.Name)
          (resourceSysFolderExists (d.SetId c.Name) meta).2
      else
        match ((resourceSysFolderExists (d.SetId c.Name) meta).2).AddFolder c with
        | (some err, client) =>
          some { d := (d.SetId c.Name).SetId "", client := client,
                 diags := diag.FromErr ("error creating Folder " ++ c.Name ++ "; " ++ err) }
        | (none, client) => resourceBigipSysFolderRead (d.SetId c.Name) client := by
  obtain ⟨h1, h2, h3, h4, h5, h6, h7⟩ := hd
  simp only [resourceBigipSysFolderCreate, h1, h2, h3, h4, h5, h6, h7, Value.assertString,
    Option.bind_eq_bind, Option.some_bind]
  cases hx : (resourceSysFolderExists (d.SetId c.Name) meta).1.1 <;> simp [hx]

theorem update_eq (d : ResourceData) (meta : BigIP σ) (c : Folder) (hd : d.HasConfig c) :
    resourceBigipSysFolderUpdate d meta =
      match meta.ModifyFolder d.Id c with
      | (some err, client) =>
        some { d := d, client := client,
               diags := diag.FromErr ("Error modifying Folder " ++ d.Id ++ ": " ++ err) }
      | (none, client) => resourceBigipSysFolderRead d client := by
  obtain ⟨h1, h2, h3, h4, h5, h6, h7⟩ := hd
  simp only [resourceBigipSysFolderUpdate, h1, h2, h3, h4, h5, h6, h7, Value.assertString,
    Option.bind_eq_bind, Option.some_bind]

/-! ## Create -/

/-- Create on a record of strings, folder present: for every state record
holding a configuration in its seven string attributes and every client whose `GetFolder` on the name succeeds with an
object, create is the read handler run right after the existence check; the
calls it issues are the two lookups, none of them an `AddFolder`. -/
theorem create_existing_skips_add (d : ResourceData) (meta : BigIP σ) (c f : Folder) (s1 : σ)
    (hd : d.HasConfig c)
    (hget : meta.onGet c.Name meta.state = ((some f, none), s1)) :
    resourceBigipSysFolderCreate d meta =
        resourceBigipSysFolderRead (d.SetId c.Name) (meta.after s1 (Call.GetFolder c.Name)) ∧
    ∃ o, resourceBigipSysFolderCreate d meta = some o ∧
      o.client.calls = meta.calls ++ [Call.GetFolder c.Name, Call.GetFolder c.Name] ∧
      (o.client.calls.drop meta.calls.length).countP Call.isAdd = 0 := by
  have hid : (d.SetId c.Name).Id = c.Name := rfl
  have hex := exists_eq (d.SetId c.Name) meta
  rw [hid, hget] at hex
  have hcreate : resourceBigipSysFolderCreate d meta =
      resourceBigipSysFolderRead (d.SetId c.Name) (meta.after s1 (Call.GetFolder c.Name)) := by
    rw [create_eq d meta c hd, hex]
    simp
  refine ⟨hcreate, ?_⟩
  obtain ⟨o, ho, hcalls, _⟩ :=
    read_calls (d.SetId c.Name) (meta.after s1 (Call.GetFolder c.Name))
  refine ⟨o, hcreate.trans ho, ?_, ?_⟩
  · rw [hcalls, hid]
    simp [BigIP.after]
  · rw [hcalls, hid]
    simp [BigIP.after, Call.isAdd]

theorem create_existing_skips_add_witness :
    resourceBigipSysFolderCreate (myfolderData "") (memoryClient [myfolder]) =
        resourceBigipSysFolderRead ((myfolderData "").SetId myfolder.Name)
          ((memoryClient [myfolder]).after [myfolder] (Call.GetFolder myfolder.Name)) ∧
    ∃ o, resourceBigipSysFolderCreate (myfolderData "") (memoryClient [myfolder]) = some o ∧
      o.client.calls =
        (memoryClient [myfolder]).calls ++
          [Call.GetFolder myfolder.Name, Call.GetFolder myfolder.Name] ∧
      (o.client.calls.drop (memoryClient [myfolder]).calls.length).countP Call.isAdd = 0 :=
  create_existing_skips_add (myfolderData "") (memoryClient [myfolder]) myfolder myfolder
    [myfolder] (by decide) (by decide)

/-- C2, as stated, fails: with a client whose lookup fails, create still issues
an `AddFolder` call carrying the configured folder. -/
theorem create_lookup_error_issues_add :
    (myfolderData "").HasConfig myfolder ∧
    ((lookupFailingClient "connection refused").GetFolder "/Common/myfolder").1 =
      (none, some "connection refused") ∧
    (resourceBigipSysFolderCreate (myfolderData "")
        (lookupFailingClient "connection refused")).map (fun o => o.client.calls) =
      some [Call.GetFolder "/Common/myfolder", Call.AddFolder myfolder,
            Call.GetFolder "/Common/myfolder"] ∧
    (resourceBigipSysFolderCreate (myfolderData "")
        (lookupFailingClient "connection refused")).map
          (fun o => o.client.calls.countP Call.isAdd) = some 1 := by
  decide

/-- C2, amended: when the lookup of the existence check returns an error, create
discards that error and issues exactly one `AddFolder` call carrying the
configured fields; when that call succeeds, create is the read handler run
after it. -/
theorem create_lookup_error_adds_once (d : ResourceData) (meta : BigIP σ) (c : Folder)
    (node : Option Folder) (e : GoError) (s1 : σ)
    (hd : d.HasConfig c)
    (hget : meta.onGet c.Name meta.state = ((node, some e), s1)) :
    (∀ s2, meta.onAdd c s1 = (none, s2) →
      resourceBigipSysFolderCreate d meta =
        resourceBigipSysFolderRead (d.SetId c.Name)
          ((meta.after s1 (Call.GetFolder c.Name)).after s2 (Call.AddFolder c))) ∧
    ∃ o, resourceBigipSysFolderCreate d meta = some o ∧
      ∃ rest, o.client.calls =
          meta.calls ++ Call.GetFolder c.Name :: Call.AddFolder c :: rest ∧
        rest.countP Call.isAdd = 0 := by
  have hid : (d.SetId c.Name).Id = c.Name := rfl
  have hex := exists_eq (d.SetId c.Name) meta
  rw [hid, hget] at hex
  have hcreate := create_eq d meta c hd
  rw [hex] at hcreate
  simp only [decide_eq_true_eq, reduceCtorEq, false_and, if_false] at hcreate
  rcases hadd : meta.onAdd c s1 with ⟨err, s2⟩
  have hAdd : (meta.after s1 (Call.GetFolder c.Name)).AddFolder c =
      (err, (meta.after s1 (Call.GetFolder c.Name)).after s2 (Call.AddFolder c)) := by
    simp [BigIP.AddFolder, BigIP.after, hadd]
  rw [hAdd] at hcreate
  cases err with
  | some e2 =>
    refine ⟨fun s2' h => by simp at h, _, hcreate, [], ?_, rfl⟩
    simp [BigIP.after]
  | none =>
    simp only at hcreate
    refine ⟨fun s2' h => ?_, ?_⟩
    · have : s2 = s2' := by simpa using h
      subst this
      exact hcreate
    · obtain ⟨o, ho, hcalls, _⟩ := read_calls (d.SetId c.Name)
        ((meta.after s1 (Call.GetFolder c.Name)).after s2 (Call.AddFolder c))
      refine ⟨o, hcreate.trans ho, [Call.GetFolder c.Name], ?_, ?_⟩
      · rw [hcalls, hid]; simp [BigIP.after]
      · simp [Call.isAdd]

theorem create_lookup_error_adds_once_witness :
    (∀ s2, (lookupFailingClient "connection refused").onAdd myfolder () = (none, s2) →
      resourceBigipSysFolderCreate (myfolderData "") (lookupFailingClient "connection refused") =
        resourceBigipSysFolderRead ((myfolderData "").SetId myfolder.Name)
          (((lookupFailingClient "connection refused").after ()
            (Call.GetFolder myfolder.Name)).after s2 (Call.AddFolder myfolder))) ∧
    ∃ o, resourceBigipSysFolderCreate (myfolderData "")
          (lookupFailingClient "connection refused") = some o ∧
      ∃ rest, o.client.calls =
          (lookupFailingClient "connection refused").calls ++
            Call.GetFolder myfolder.Name :: Call.AddFolder myfolder :: rest ∧
        rest.countP Call.isAdd = 0 :=
  create_lookup_error_adds_once (myfolderData "") (lookupFailingClient "connection refused")
    myfolder none "connection refused" () (by decide) (by decide)

/-- C3: for every state record holding a configuration in its seven string
attributes, if the existence check answers false and `AddFolder` returns an
error, create returns one error diagnostic whose text contains the folder name
and the underlying error, the identifier is empty and the attributes are as
before, and the last call issued is the `AddFolder`: the read handler, which
always issues a lookup, is not run. -/
theorem create_add_failure_rolls_back (d : ResourceData) (meta : BigIP σ) (c : Folder)
    (e : GoError)
    (hd : d.HasConfig c)
    (hex : (resourceSysFolderExists (d.SetId c.Name) meta).1.1 = false)
    (hadd : (meta.onAdd c (meta.onGet c.Name meta.state).2).1 = some e) :
    ∃ o, resourceBigipSysFolderCreate d meta = some o ∧
      o.diags = [{ Severity := .Error,
                   Summary := "error creating Folder " ++ c.Name ++ "; " ++ e }] ∧
      (∀ g ∈ o.diags, Contains g.Summary c.Name ∧ Contains g.Summary e) ∧
      o.d.Id = "" ∧ o.d.attrs = d.attrs ∧
      o.client.calls = meta.calls ++ [Call.GetFolder c.Name, Call.AddFolder c] := by
  have hid : (d.SetId c.Name).Id = c.Name := rfl
  have hcreate := create_eq d meta c hd
  simp only [hex, Bool.false_eq_true, if_false] at hcreate
  have hex2 := exists_eq (d.SetId c.Name) meta
  rw [hid] at hex2
  rw [hex2] at hcreate
  rcases hadd2 : meta.onAdd c (meta.onGet c.Name meta.state).2 with ⟨err, s2⟩
  rw [hadd2] at hadd
  simp only at hadd
  subst hadd
  have hAdd : (meta.after (meta.onGet c.Name meta.state).2 (Call.GetFolder c.Name)).AddFolder c =
      (some e, (meta.after (meta.onGet c.Name meta.state).2 (Call.GetFolder c.Name)).after s2
        (Call.AddFolder c)) := by
    simp [BigIP.AddFolder, BigIP.after, hadd2]
  rw [hAdd] at hcreate
  refine ⟨_, hcreate, rfl, ?_, rfl, rfl, ?_⟩
  · intro g hg
    simp only [diag.FromErr, List.mem_singleton] at hg
    subst hg
    exact ⟨contains_inner _ _ _ _, contains_end _ _⟩
  · simp [BigIP.after]

theorem create_add_failure_rolls_back_witness :
    ∃ o, resourceBigipSysFolderCreate (myfolderData "") (failingClient "connection refused") =
        some o ∧
      o.diags = [{ Severity := .Error,
                   Summary := "error creating Folder " ++ myfolder.Name ++ "; " ++
                     "connection refused" }] ∧
      (∀ g ∈ o.diags, Contains g.Summary myfolder.Name ∧
        Contains g.Summary "connection refused") ∧
      o.d.Id = "" ∧ o.d.attrs = (myfolderData "").attrs ∧
      o.client.calls =
        (failingClient "connection refused").calls ++
          [Call.GetFolder myfolder.Name, Call.AddFolder myfolder] :=
  create_add_failure_rolls_back (myfolderData "") (failingClient "connection refused") myfolder
    "connection refused" (by decide) (by decide) (by decide)

theorem find_after_add (fs : List Folder) (c : Folder)
    (hfresh : ∀ f ∈ fs, f.Name ≠ c.Name) :
    fs.find? (fun f => f.Name == c.Name) = none ∧
    (fs ++ [c]).find? (fun f => f.Name == c.Name) = some c := by
  have h1 : fs.find? (fun f => f.Name == c.Name) = none := by
    rw [List.find?_eq_none]
    intro f hf
    simpa using hfresh f hf
  refine ⟨h1, ?_⟩
  rw [List.find?_append, h1]
  simp

/-- Create on a record of strings, folder absent: for every state record
holding a configuration in its seven string attributes whose name has no folder in the in-memory device, create issues a
lookup, exactly one `AddFolder` carrying the seven configured fields, and the
lookup of read; it returns no diagnostics, the identifier is the name, every
one of the seven attributes equals its input value, and the device has stored
the configured folder. -/
theorem create_then_read_round_trip (d : ResourceData) (c : Folder) (fs : List Folder)
    (hd : d.HasConfig c)
    (hfresh : ∀ f ∈ fs, f.Name ≠ c.Name) :
    ∃ o, resourceBigipSysFolderCreate d (memoryClient fs) = some o ∧
      o.client.calls =
        [Call.GetFolder c.Name, Call.AddFolder c, Call.GetFolder c.Name] ∧
      o.client.calls.countP Call.isAdd = 1 ∧
      o.diags = [] ∧ o.d.Id = c.Name ∧ o.d.HasConfig c ∧
      o.client.state = fs ++ [c] := by
  obtain ⟨hnone, hsome⟩ := find_after_add fs c hfresh
  have hid : (d.SetId c.Name).Id = c.Name := rfl
  have hdd : (d.SetId c.Name).HasConfig c := hd
  have hex := exists_eq (d.SetId c.Name) (memoryClient fs)
  rw [hid] at hex
  have hget : (memoryClient fs).onGet c.Name (memoryClient fs).state = ((none, none), fs) := by
    simp [memoryClient, hnone]
  rw [hget] at hex
  have hcreate := create_eq d (memoryClient fs) c hd
  rw [hex] at hcreate
  simp only [ne_eq, not_true_eq_false, and_false, decide_False, Bool.false_eq_true,
    if_false] at hcreate
  have hAdd : ((memoryClient fs).after fs (Call.GetFolder c.Name)).AddFolder c =
      (none, ((memoryClient fs).after fs (Call.GetFolder c.Name)).after (fs ++ [c])
        (Call.AddFolder c)) := by
    simp [BigIP.AddFolder, BigIP.after, memoryClient]
  rw [hAdd] at hcreate
  simp only at hcreate
  have hget2 : (((memoryClient fs).after fs (Call.GetFolder c.Name)).after (fs ++ [c])
      (Call.AddFolder c)).onGet (d.SetId c.Name).Id
      (((memoryClient fs).after fs (Call.GetFolder c.Name)).after (fs ++ [c])
      (Call.AddFolder c)).state = ((some c, none), fs ++ [c]) := by
    simp [BigIP.after, memoryClient, hid, hsome]
  obtain ⟨o, ho, hdiag, hoid, hcfg, hcalls, hstate⟩ :=
    read_found_sync (d.SetId c.Name) _ c c (fs ++ [c]) hdd hget2
  refine ⟨o, hcreate.trans ho, ?_, ?_, hdiag, hoid.trans hid, hcfg, hstate⟩
  · rw [hcalls, hid]; simp [BigIP.after, memoryClient]
  · rw [hcalls, hid]; simp [BigIP.after, memoryClient, Call.isAdd]

theorem create_then_read_round_trip_witness :
    ∃ o, resourceBigipSysFolderCreate (myfolderData "") (memoryClient []) = some o ∧
      o.client.calls =
        [Call.GetFolder myfolder.Name, Call.AddFolder myfolder,
         Call.GetFolder myfolder.Name] ∧
      o.client.calls.countP Call.isAdd = 1 ∧
      o.diags = [] ∧ o.d.Id = myfolder.Name ∧ o.d.HasConfig myfolder ∧
      o.client.state = [] ++ [myfolder] :=
  create_then_read_round_trip (myfolderData "") myfolder [] (by decide) (by decide)

/-! ## Read -/

/-- C5: for every local state, if the lookup on the identifier succeeds with no
object, read returns no diagnostics, the identifier is empty afterwards, and
the attribute store, hence every one of the seven attributes, is unchanged. -/
theorem read_absent_clears_id (d : ResourceData) (meta : BigIP σ) (s1 : σ)
    (hget : meta.onGet d.Id meta.state = ((none, none), s1)) :
    ∃ o, resourceBigipSysFolderRead d meta = some o ∧ o.diags = [] ∧ o.d.Id = "" ∧
      o.d.attrs = d.attrs ∧
      (∀ k ∈ ["name", "appService", "description", "deviceGroup", "hidden", "noRefCheck",
              "trafficGroup"], o.d.Get k = d.Get k) :=
  ⟨_, read_absent_eq d meta s1 hget, rfl, rfl, rfl, fun _ _ => rfl⟩

theorem read_absent_clears_id_witness :
    ∃ o, resourceBigipSysFolderRead (myfolderData "/Common/gone") (memoryClient []) = some o ∧
      o.diags = [] ∧ o.d.Id = "" ∧ o.d.attrs = (myfolderData "/Common/gone").attrs ∧
      (∀ k ∈ ["name", "appService", "description", "deviceGroup", "hidden", "noRefCheck",
              "trafficGroup"], o.d.Get k = (myfolderData "/Common/gone").Get k) :=
  read_absent_clears_id (myfolderData "/Common/gone") (memoryClient []) [] (by decide)

/-- Read on a record of strings, folder present: for every local state whose
seven attributes hold strings, if the lookup
on the identifier returns an object, read returns no diagnostics, leaves the
identifier unchanged, and afterwards each of name, appService, description,
deviceGroup, hidden, noRefCheck and trafficGroup holds the corresponding field
of the remote object. -/
theorem read_found_resyncs (d : ResourceData) (meta : BigIP σ) (c f : Folder) (s1 : σ)
    (hd : d.HasConfig c)
    (hget : meta.onGet d.Id meta.state = ((some f, none), s1)) :
    ∃ o, resourceBigipSysFolderRead d meta = some o ∧ o.diags = [] ∧ o.d.Id = d.Id ∧
      o.d.Get "name" = .str f.Name ∧ o.d.Get "appService" = .str f.AppService ∧
      o.d.Get "description" = .str f.Description ∧
      o.d.Get "deviceGroup" = .str f.DeviceGroup ∧ o.d.Get "hidden" = .str f.Hidden ∧
      o.d.Get "noRefCheck" = .str f.NoRefCheck ∧
      o.d.Get "trafficGroup" = .str f.TrafficGroup := by
  obtain ⟨o, ho, hdiag, hoid, hcfg, _, _⟩ := read_found_sync d meta c f s1 hd hget
  exact ⟨o, ho, hdiag, hoid, hcfg⟩

theorem read_found_resyncs_witness :
    ∃ o, resourceBigipSysFolderRead (myfolderData "/Common/myfolder")
        (memoryClient [driftedFolder]) = some o ∧
      o.diags = [] ∧ o.d.Id = (myfolderData "/Common/myfolder").Id ∧
      o.d.Get "name" = .str driftedFolder.Name ∧
      o.d.Get "appService" = .str driftedFolder.AppService ∧
      o.d.Get "description" = .str driftedFolder.Description ∧
      o.d.Get "deviceGroup" = .str driftedFolder.DeviceGroup ∧
      o.d.Get "hidden" = .str driftedFolder.Hidden ∧
      o.d.Get "noRefCheck" = .str driftedFolder.NoRefCheck ∧
      o.d.Get "trafficGroup" = .str driftedFolder.TrafficGroup :=
  read_found_resyncs (myfolderData "/Common/myfolder") (memoryClient [driftedFolder]) myfolder
    driftedFolder [driftedFolder] (by decide) (by decide)

theorem delete_eq (d : ResourceData) (meta : BigIP σ) :
    resourceBigipSysFolderDelete d meta =
      match (meta.onDelete d.Id meta.state).1 with
      | some err =>
        some { d := d,
               client := meta.after (meta.onDelete d.Id meta.state).2 (Call.DeleteFolder d.Id),
               diags := diag.FromErr err }
      | none =>
        some { d := d.SetId "",
               client := meta.after (meta.onDelete d.Id meta.state).2 (Call.DeleteFolder d.Id),
               diags := [] } := by
  rcases h : meta.onDelete d.Id meta.state with ⟨err, s1⟩
  cases err <;> simp [resourceBigipSysFolderDelete, BigIP.DeleteFolder, h, BigIP.after]

/-! ## Delete -/

/-- C7: for every local state, delete issues exactly one remote call, the
`DeleteFolder` keyed by the identifier; if that call returns an error, delete
returns an error diagnostic and the local state, identifier included, is
unchanged; if it succeeds, delete returns no diagnostics and the identifier is
empty. -/
theorem delete_single_call (d : ResourceData) (meta : BigIP σ) :
    ∃ o, resourceBigipSysFolderDelete d meta = some o ∧
      o.client.calls = meta.calls ++ [Call.DeleteFolder d.Id] ∧
      (∀ e, (meta.onDelete d.Id meta.state).1 = some e →
        o.diags = [{ Severity := .Error, Summary := e }] ∧ o.d = d) ∧
      ((meta.onDelete d.Id meta.state).1 = none →
        o.diags = [] ∧ o.d.Id = "" ∧ o.d.attrs = d.attrs) := by
  have h := delete_eq d meta
  cases herr : (meta.onDelete d.Id meta.state).1 with
  | some err =>
    rw [herr] at h
    refine ⟨_, h, rfl, ?_, ?_⟩
    · intro e he
      have : err = e := by simpa using he
      subst this
      exact ⟨rfl, rfl⟩
    · intro he
      simp at he
  | none =>
    rw [herr] at h
    refine ⟨_, h, rfl, ?_, ?_⟩
    · intro e he
      simp at he
    · intro _
      exact ⟨rfl, rfl, rfl⟩

theorem delete_single_call_witness :
    (∃ o, resourceBigipSysFolderDelete (myfolderData "/Common/myfolder")
        (failingClient "connection refused") = some o ∧
      o.client.calls = [Call.DeleteFolder "/Common/myfolder"] ∧
      o.diags = [{ Severity := .Error, Summary := "connection refused" }] ∧
      o.d = myfolderData "/Common/myfolder") ∧
    (∃ o, resourceBigipSysFolderDelete (myfolderData "/Common/myfolder")
        (memoryClient [myfolder]) = some o ∧
      o.client.calls = [Call.DeleteFolder "/Common/myfolder"] ∧
      o.diags = [] ∧ o.d.Id = "" ∧ o.d.attrs = (myfolderData "/Common/myfolder").attrs) := by
  constructor
  · obtain ⟨o, ho, hc, herr, _⟩ :=
      delete_single_call (myfolderData "/Common/myfolder") (failingClient "connection refused")
    exact ⟨o, ho, hc, herr "connection refused" (by decide)⟩
  · obtain ⟨o, ho, hc, _, hok⟩ :=
      delete_single_call (myfolderData "/Common/myfolder") (memoryClient [myfolder])
    exact ⟨o, ho, hc, hok (by decide)⟩

/-! ## Update -/

/-- Update on a record of strings: for every local state holding a
configuration in its seven string attributes, update issues exactly one `ModifyFolder` call, keyed by the
identifier, whose payload is the whole current record; if that call fails,
update returns an error diagnostic, issues no further call (read, which always
issues a lookup, is not run) and leaves the local state unchanged. -/
theorem update_sends_full_record (d : ResourceData) (meta : BigIP σ) (c : Folder)
    (hd : d.HasConfig c) :
    ∃ o, resourceBigipSysFolderUpdate d meta = some o ∧
      (∃ rest, o.client.calls = meta.calls ++ Call.ModifyFolder d.Id c :: rest ∧
        rest.countP Call.isModify = 0) ∧
      (∀ e, (meta.onModify d.Id c meta.state).1 = some e →
        o.diags = [{ Severity := .Error,
                     Summary := "Error modifying Folder " ++ d.Id ++ ": " ++ e }] ∧
        o.d = d ∧
        o.client.calls = meta.calls ++ [Call.ModifyFolder d.Id c]) := by
  have hupd := update_eq d meta c hd
  rcases hmod : meta.onModify d.Id c meta.state with ⟨err, s1⟩
  have hMod : meta.ModifyFolder d.Id c = (err, meta.after s1 (Call.ModifyFolder d.Id c)) := by
    simp [BigIP.ModifyFolder, BigIP.after, hmod]
  rw [hMod] at hupd
  cases err with
  | some e0 =>
    refine ⟨_, hupd, ⟨[], rfl, rfl⟩, ?_⟩
    intro e he
    have : e0 = e := by simpa using he
    subst this
    exact ⟨rfl, rfl, rfl⟩
  | none =>
    simp only at hupd
    obtain ⟨o, ho, hcalls, _⟩ := read_calls d (meta.after s1 (Call.ModifyFolder d.Id c))
    refine ⟨o, hupd.trans ho, ⟨[Call.GetFolder d.Id], ?_, ?_⟩, ?_⟩
    · rw [hcalls]; simp [BigIP.after]
    · simp [Call.isModify]
    · intro e he
      simp at he

theorem update_sends_full_record_witness :
    ∃ o, resourceBigipSysFolderUpdate (myfolderData "/Common/myfolder")
        (failingClient "connection refused") = some o ∧
      (∃ rest, o.client.calls =
          (failingClient "connection refused").calls ++
            Call.ModifyFolder (myfolderData "/Common/myfolder").Id myfolder :: rest ∧
        rest.countP Call.isModify = 0) ∧
      (∀ e, ((failingClient "connection refused").onModify
            (myfolderData "/Common/myfolder").Id myfolder
            (failingClient "connection refused").state).1 = some e →
        o.diags = [{ Severity := .Error,
                     Summary := "Error modifying Folder " ++
                       (myfolderData "/Common/myfolder").Id ++ ": " ++ e }] ∧
        o.d = myfolderData "/Common/myfolder" ∧
        o.client.calls =
          (failingClient "connection refused").calls ++
            [Call.ModifyFolder (myfolderData "/Common/myfolder").Id myfolder]) :=
  update_sends_full_record (myfolderData "/Common/myfolder")
    (failingClient "connection refused") myfolder (by decide)

/-! ## Error reporting -/

/-- C9, as stated, fails for read and for delete: with a client whose calls fail
with the text "connection refused", each returns that text alone, which
contains neither the identifier nor the folder name. -/
theorem read_delete_error_lacks_identifier :
    (resourceBigipSysFolderRead (myfolderData "/Common/gone")
        (failingClient "connection refused")).map (fun o => o.diags) =
      some [{ Severity := .Error, Summary := "connection refused" }] ∧
    (resourceBigipSysFolderDelete (myfolderData "/Common/gone")
        (failingClient "connection refused")).map (fun o => o.diags) =
      some [{ Severity := .Error, Summary := "connection refused" }] ∧
    ¬ Contains "connection refused" (myfolderData "/Common/gone").Id ∧
    ¬ Contains "connection refused" "/Common/myfolder" := by
  decide

/-- C9, amended: when `AddFolder` fails in create, or `ModifyFolder` in update,
the returned error text contains the folder name (create) or the identifier
(update) and the underlying error text; when `GetFolder` fails in read, or
`DeleteFolder` in delete, whatever the local state, the returned error is the
underlying error alone. -/
theorem remote_error_reporting (d : ResourceData) (meta : BigIP σ) (e : GoError) :
    (∀ c, d.HasConfig c →
      (resourceSysFolderExists (d.SetId c.Name) meta).1.1 = false →
      (meta.onAdd c (meta.onGet c.Name meta.state).2).1 = some e →
      ∃ o, resourceBigipSysFolderCreate d meta = some o ∧
        o.diags = [{ Severity := .Error,
                     Summary := "error creating Folder " ++ c.Name ++ "; " ++ e }] ∧
        Contains ("error creating Folder " ++ c.Name ++ "; " ++ e) c.Name ∧
        Contains ("error creating Folder " ++ c.Name ++ "; " ++ e) e) ∧
    (∀ c, d.HasConfig c →
      (meta.onModify d.Id c meta.state).1 = some e →
      ∃ o, resourceBigipSysFolderUpdate d meta = some o ∧
        o.diags = [{ Severity := .Error,
                     Summary := "Error modifying Folder " ++ d.Id ++ ": " ++ e }] ∧
        Contains ("Error modifying Folder " ++ d.Id ++ ": " ++ e) d.Id ∧
        Contains ("Error modifying Folder " ++ d.Id ++ ": " ++ e) e) ∧
    ((meta.onGet d.Id meta.state).1.2 = some e →
      ∃ o, resourceBigipSysFolderRead d meta = some o ∧
        o.diags = [{ Severity := .Error, Summary := e }]) ∧
    ((meta.onDelete d.Id meta.state).1 = some e →
      ∃ o, resourceBigipSysFolderDelete d meta = some o ∧
        o.diags = [{ Severity := .Error, Summary := e }]) := by
  refine ⟨?_, ?_, ?_, ?_⟩
  · intro c hd hex hadd
    have hid : (d.SetId c.Name).Id = c.Name := rfl
    have hcreate := create_eq d meta c hd
    simp only [hex, Bool.false_eq_true, if_false] at hcreate
    have hex2 := exists_eq (d.SetId c.Name) meta
    rw [hid] at hex2
    rw [hex2] at hcreate
    rcases hadd2 : meta.onAdd c (meta.onGet c.Name meta.state).2 with ⟨err, s2⟩
    rw [hadd2] at hadd
    simp only at hadd
    subst hadd
    have hAdd :
        (meta.after (meta.onGet c.Name meta.state).2 (Call.GetFolder c.Name)).AddFolder c =
        (some e, (meta.after (meta.onGet c.Name meta.state).2 (Call.GetFolder c.Name)).after s2
          (Call.AddFolder c)) := by
      simp [BigIP.AddFolder, BigIP.after, hadd2]
    rw [hAdd] at hcreate
    exact ⟨_, hcreate, rfl, contains_inner _ _ _ _, contains_end _ _⟩
  · intro c hd hmod
    have hupd := update_eq d meta c hd
    rcases hmod2 : meta.onModify d.Id c meta.state with ⟨err, s1⟩
    rw [hmod2] at hmod
    simp only at hmod
    subst hmod
    have hMod : meta.ModifyFolder d.Id c =
        (some e, meta.after s1 (Call.ModifyFolder d.Id c)) := by
      simp [BigIP.ModifyFolder, BigIP.after, hmod2]
    rw [hMod] at hupd
    exact ⟨_, hupd, rfl, contains_inner _ _ _ _, contains_end _ _⟩
  · intro hget
    rcases hget2 : meta.onGet d.Id meta.state with ⟨⟨folder, err⟩, s1⟩
    rw [hget2] at hget
    simp only at hget
    subst hget
    exact ⟨_, read_error_eq d meta folder e s1 hget2, rfl⟩
  · intro hdel
    have h := delete_eq d meta
    rw [hdel] at h
    exact ⟨_, h, rfl⟩

theorem remote_error_reporting_witness :
    (∃ o, resourceBigipSysFolderCreate (myfolderData "") (failingClient "connection refused") =
        some o ∧
      o.diags = [{ Severity := .Error,
                   Summary := "error creating Folder " ++ myfolder.Name ++ "; " ++
                     "connection refused" }] ∧
      Contains ("error creating Folder " ++ myfolder.Name ++ "; " ++ "connection refused")
        myfolder.Name ∧
      Contains ("error creating Folder " ++ myfolder.Name ++ "; " ++ "connection refused")
        "connection refused") ∧
    (∃ o, resourceBigipSysFolderUpdate (myfolderData "/Common/myfolder")
        (failingClient "connection refused") = some o ∧
      o.diags = [{ Severity := .Error,
                   Summary := "Error modifying Folder " ++
                     (myfolderData "/Common/myfolder").Id ++ ": " ++ "connection refused" }] ∧
      Contains ("Error modifying Folder " ++ (myfolderData "/Common/myfolder").Id ++ ": " ++
        "connection refused") (myfolderData "/Common/myfolder").Id ∧
      Contains ("Error modifying Folder " ++ (myfolderData "/Common/myfolder").Id ++ ": " ++
        "connection refused") "connection refused") ∧
    (∃ o, resourceBigipSysFolderRead (declaredData "/Common/gone")
        (failingClient "connection refused") = some o ∧
      o.diags = [{ Severity := .Error, Summary := "connection refused" }]) ∧
    (∃ o, resourceBigipSysFolderDelete (declaredData "/Common/gone")
        (failingClient "connection refused") = some o ∧
      o.diags = [{ Severity := .Error, Summary := "connection refused" }]) :=
  have hc := remote_error_reporting (myfolderData "") (failingClient "connection refused")
    "connection refused"
  have hu := remote_error_reporting (myfolderData "/Common/myfolder")
    (failingClient "connection refused") "connection refused"
  have hr := remote_error_reporting (declaredData "/Common/gone")
    (failingClient "connection refused") "connection refused"
  ⟨hc.1 myfolder (by decide) (by decide) (by decide), hu.2.1 myfolder (by decide) (by decide),
    hr.2.2.1 (by decide), hr.2.2.2 (by decide)⟩

/-! ## Records of the declared schema -/

theorem mem_of_lookup (l : List (String × Value)) (k : String) (v : Value)
    (h : l.lookup k = some v) : (k, v) ∈ l := by
  induction l with
  | nil => simp at h
  | cons a l ih =>
    obtain ⟨ka, va⟩ := a
    simp only [List.lookup_cons] at h
    by_cases hk : k = ka
    · subst hk
      simp at h
      subst h
      exact List.mem_cons_self _ _
    · have h1 : (k == ka) = false := by simpa using hk
      simp only [h1] at h
      exact List.mem_cons_of_mem _ (ih h)

theorem ResourceData.Set_refused (d : ResourceData) (k : String) (v : Value)
    (h : (d.Get k).kind ≠ v.kind) : (d.Set k v).1 = d := by
  unfold ResourceData.Get at h
  unfold ResourceData.Set
  cases hl : d.attrs.lookup k with
  | none => rfl
  | some old =>
    rw [hl] at h
    simp only at h
    simp [h]

theorem ResourceData.Get_Set_other (d : ResourceData) (k k' : String) (v : Value)
    (hk : k' ≠ k) : (d.Set k v).1.Get k' = d.Get k' := by
  unfold ResourceData.Set
  cases hl : d.attrs.lookup k with
  | none => rfl
  | some old =>
    by_cases hq : old.kind = v.kind
    · simp only [hq, if_true]
      unfold ResourceData.Get
      simp only [lookup_map_set, hk, if_false]
    · simp only [hq, if_false]

/-- On every state record of the declared schema the string assertion on name
fails, so create and update panic before any remote call. -/
theorem declared_record_panics (d : ResourceData) (meta : BigIP σ)
    (h : d.conforms resourceBigipSysFolderSchema = true) :
    (d.Get "name").assertString = none ∧
    resourceBigipSysFolderCreate d meta = none ∧
    resourceBigipSysFolderUpdate d meta = none := by
  have hkind : (d.Get "name").kind = some .TypeList := by
    simpa [ResourceData.conforms, resourceBigipSysFolderSchema] using
      (List.all_eq_true.1 h ("name", ⟨.TypeList, true, false, true, none, none⟩)
        (by simp [resourceBigipSysFolderSchema]))
  have hassert : (d.Get "name").assertString = none := by
    cases hv : d.Get "name" <;> simp [hv, Value.kind, Value.assertString] at hkind ⊢
  refine ⟨hassert, ?_, ?_⟩
  · simp [resourceBigipSysFolderCreate, hassert]
  · simp [resourceBigipSysFolderUpdate, hassert]

theorem declared_record_panics_witness :
    ((declaredData "/Common/myfolder").Get "name").assertString = none ∧
    resourceBigipSysFolderCreate (declaredData "/Common/myfolder") (memoryClient [myfolder]) =
      none ∧
    resourceBigipSysFolderUpdate (declaredData "/Common/myfolder") (memoryClient [myfolder]) =
      none :=
  declared_record_panics (declaredData "/Common/myfolder") (memoryClient [myfolder])
    (by decide)

/-- On every state record of the declared schema, read with the folder found
leaves name the list it was: the setter refuses the string and read drops the
error. -/
theorem declared_record_read_keeps_name (d : ResourceData) (meta : BigIP σ) (f : Folder)
    (s1 : σ)
    (h : d.conforms resourceBigipSysFolderSchema = true)
    (hget : meta.onGet d.Id meta.state = ((some f, none), s1)) :
    ∃ o, resourceBigipSysFolderRead d meta = some o ∧ o.diags = [] ∧
      o.d.Get "name" = d.Get "name" ∧ o.d.Get "name" ≠ .str f.Name := by
  have hkind : (d.Get "name").kind = some .TypeList := by
    simpa [ResourceData.conforms, resourceBigipSysFolderSchema] using
      (List.all_eq_true.1 h ("name", ⟨.TypeList, true, false, true, none, none⟩)
        (by simp [resourceBigipSysFolderSchema]))
  have hrefused : (d.Set "name" (.str f.Name)).1 = d :=
    ResourceData.Set_refused d "name" _ (by rw [hkind]; simp [Value.kind])
  have hkeep : ((((((((d.Set "name" (.str f.Name)).1.Set "appService"
      (.str f.AppService)).1.Set "description" (.str f.Description)).1.Set
      "deviceGroup" (.str f.DeviceGroup)).1.Set "hidden" (.str f.Hidden)).1.Set
      "noRefCheck" (.str f.NoRefCheck)).1.Set "trafficGroup"
      (.str f.TrafficGroup)).1).Get "name" = d.Get "name" := by
    rw [ResourceData.Get_Set_other _ _ _ _ (by decide),
      ResourceData.Get_Set_other _ _ _ _ (by decide),
      ResourceData.Get_Set_other _ _ _ _ (by decide),
      ResourceData.Get_Set_other _ _ _ _ (by decide),
      ResourceData.Get_Set_other _ _ _ _ (by decide),
      ResourceData.Get_Set_other _ _ _ _ (by decide), hrefused]
  refine ⟨_, read_found_eq d meta f s1 hget, rfl, hkeep, ?_⟩
  show _ ≠ _
  rw [hkeep]
  intro hc
  rw [hc] at hkind
  simp [Value.kind] at hkind

theorem declared_record_read_keeps_name_witness :
    ∃ o, resourceBigipSysFolderRead (declaredData "/Common/myfolder")
        (memoryClient [driftedFolder]) = some o ∧ o.diags = [] ∧
      o.d.Get "name" = (declaredData "/Common/myfolder").Get "name" ∧
      o.d.Get "name" ≠ .str driftedFolder.Name :=
  declared_record_read_keeps_name (declaredData "/Common/myfolder")
    (memoryClient [driftedFolder]) driftedFolder [driftedFolder] (by decide) (by decide)

/-- Every record the host builds from a configuration block under the declared
schema holds the empty list for name, and create and update panic on it. -/
theorem accepted_config_panics (raw : List (String × Value)) (d : ResourceData)
    (meta : BigIP σ) (id : String)
    (hcfg : ResourceData.ofConfig resourceBigipSysFolderSchema raw = some d) :
    d.Get "name" = .list [] ∧
    resourceBigipSysFolderCreate d meta = none ∧
    resourceBigipSysFolderUpdate (d.SetId id) meta = none := by
  unfold ResourceData.ofConfig at hcfg
  split at hcfg
  case isFalse => simp at hcfg
  case isTrue hok =>
  rw [Bool.and_eq_true] at hok
  obtain ⟨hacc, helem⟩ := hok
  unfold schemaAccepts at hacc
  rw [Bool.and_eq_true] at hacc
  obtain ⟨hall, hreq⟩ := hacc
  have hmem : (("name", ⟨.TypeList, true, false, true, none, none⟩) : String × Schema) ∈
      resourceBigipSysFolderSchema := by
    simp [resourceBigipSysFolderSchema]
  have hname : (raw.lookup "name").isSome = true := by
    simpa using List.all_eq_true.1 hreq _ hmem
  obtain ⟨v, hv⟩ := Option.isSome_iff_exists.1 hname
  have hkind : v.kind = some .TypeList := by
    have := List.all_eq_true.1 hall ("name", v) (mem_of_lookup raw "name" v hv)
    simpa [resourceBigipSysFolderSchema, List.lookup] using this
  have hempty : v = .list [] := by
    have := List.all_eq_true.1 helem _ hmem
    simp only [hv] at this
    cases v with
    | nil => simp [Value.kind] at hkind
    | str s => simp [Value.kind] at hkind
    | list xs =>
      cases xs with
      | nil => rfl
      | cons x xs => simp [Schema.elemsKnown] at this
  subst hempty
  have hd : d.Get "name" = .list [] := by
    have hd' := (Option.some.inj hcfg).symm
    subst hd'
    simp [ResourceData.Get, resourceBigipSysFolderSchema, List.lookup, hv]
  have hd2 : (d.SetId id).Get "name" = .list [] := hd
  refine ⟨hd, ?_, ?_⟩
  · simp [resourceBigipSysFolderCreate, hd, Value.assertString]
  · simp [resourceBigipSysFolderUpdate, hd2, Value.assertString]

theorem accepted_config_panics_witness :
    (declaredData "").Get "name" = .list [] ∧
    resourceBigipSysFolderCreate (declaredData "") (memoryClient []) = none ∧
    resourceBigipSysFolderUpdate ((declaredData "").SetId "/Common/myfolder")
      (memoryClient []) = none :=
  accepted_config_panics emptyNameRaw (declaredData "") (memoryClient []) "/Common/myfolder"
    (by decide)

/-! ## The claims on records of the declared schema -/

/-- C1, evaluated on the code: the configuration with name as the empty list is
accepted by the declared schema and yields a state record; every lookup of the
client returns an object; create on that record panics at the string assertion
on name, so it neither looks the folder up nor goes to read. -/
theorem create_existing_panics_on_declared_record :
    schemaAccepts resourceBigipSysFolderSchema emptyNameRaw = true ∧
    ResourceData.ofConfig resourceBigipSysFolderSchema emptyNameRaw = some (declaredData "") ∧
    (presentClient myfolder).onGet "/Common/myfolder" (presentClient myfolder).state =
      ((some myfolder, none), ()) ∧
    (presentClient myfolder).onGet "" (presentClient myfolder).state =
      ((some myfolder, none), ()) ∧
    ((declaredData "").Get "name").assertString = none ∧
    (resourceBigipSysFolderCreate (declaredData "") (presentClient myfolder)).isNone = true ∧
    (resourceBigipSysFolderRead (declaredData "") (presentClient myfolder)).isSome = true := by
  decide

/-- C4, evaluated on the code: the scenario's configuration with name as a
string is refused by the declared schema and yields no state record; the
configuration with name as the empty list is accepted, and create on its record
against the empty in-memory device panics at the string assertion on name: no
`AddFolder` is issued and no state is returned. -/
theorem create_round_trip_panics_on_declared_record :
    schemaAccepts resourceBigipSysFolderSchema scenarioRaw = false ∧
    ResourceData.ofConfig resourceBigipSysFolderSchema scenarioRaw = none ∧
    ResourceData.ofConfig resourceBigipSysFolderSchema myfolderRaw = none ∧
    ResourceData.ofConfig resourceBigipSysFolderSchema emptyNameRaw = some (declaredData "") ∧
    (memoryClient []).onGet "/Common/myfolder" (memoryClient []).state = ((none, none), []) ∧
    (resourceBigipSysFolderCreate (declaredData "") (memoryClient [])).isNone = true ∧
    (resourceBigipSysFolderCreate (declaredData "") (memoryClient [])).map
      (fun o => o.client.calls.countP Call.isAdd) ≠ some 1 := by
  decide

/-- C6, evaluated on the code: on a state record of the declared schema with
identifier "/Common/myfolder", where the lookup returns an object, read returns
no diagnostics and keeps the identifier, and sets the six string attributes to
the remote fields, but name stays the empty list and is not the remote name. -/
theorem read_declared_record_keeps_name_list :
    ResourceData.conforms resourceBigipSysFolderSchema (declaredData "/Common/myfolder") =
      true ∧
    (memoryClient [driftedFolder]).onGet (declaredData "/Common/myfolder").Id
      (memoryClient [driftedFolder]).state = ((some driftedFolder, none), [driftedFolder]) ∧
    (resourceBigipSysFolderRead (declaredData "/Common/myfolder")
      (memoryClient [driftedFolder])).map (fun o => (o.diags, o.d.Id)) =
      some ([], "/Common/myfolder") ∧
    (resourceBigipSysFolderRead (declaredData "/Common/myfolder")
      (memoryClient [driftedFolder])).map
        (fun o => [o.d.Get "appService", o.d.Get "description", o.d.Get "deviceGroup",
                   o.d.Get "hidden", o.d.Get "noRefCheck", o.d.Get "trafficGroup"]) =
      some [.str driftedFolder.AppService, .str driftedFolder.Description,
            .str driftedFolder.DeviceGroup, .str driftedFolder.Hidden,
            .str driftedFolder.NoRefCheck, .str driftedFolder.TrafficGroup] ∧
    (resourceBigipSysFolderRead (declaredData "/Common/myfolder")
      (memoryClient [driftedFolder])).map (fun o => o.d.Get "name") = some (.list []) ∧
    (resourceBigipSysFolderRead (declaredData "/Common/myfolder")
      (memoryClient [driftedFolder])).map (fun o => o.d.Get "name") ≠
      some (.str driftedFolder.Name) := by
  decide

/-- C8, evaluated on the code: on a state record of the declared schema with
identifier "/Common/myfolder", update panics at the string assertion on name:
it issues no `ModifyFolder` call and returns nothing. -/
theorem update_panics_on_declared_record :
    ResourceData.conforms resourceBigipSysFolderSchema (declaredData "/Common/myfolder") =
      true ∧
    ((declaredData "/Common/myfolder").Get "name").assertString = none ∧
    (resourceBigipSysFolderUpdate (declaredData "/Common/myfolder")
      (memoryClient [myfolder])).isNone = true ∧
    (resourceBigipSysFolderUpdate (declaredData "/Common/myfolder")
      (memoryClient [myfolder])).map (fun o => o.client.calls.countP Call.isModify) ≠
      some 1 := by
  decide

/-- C10, evaluated on the code: the schema declares name as a required list
attribute forcing recreation, not a string; the other six attributes are
optional strings with the stated defaults; a configuration with name as a list
passes the type check, builds a state record only when the list is empty, the
getter returns that list for name, the string assertion on it fails, create and
update panic, and read, whose string for name the setter refuses, leaves name
the list it was. -/
theorem declared_name_is_list_not_string :
    (resourceBigipSysFolder : Resource Unit).Schema.lookup "name" =
      some { Type_ := .TypeList, Required := true, ForceNew := true } ∧
    (resourceBigipSysFolder : Resource Unit).Schema.lookup "appService" =
      some { Type_ := .TypeString, Optional := true } ∧
    (resourceBigipSysFolder : Resource Unit).Schema.lookup "description" =
      some { Type_ := .TypeString, Optional := true } ∧
    (resourceBigipSysFolder : Resource Unit).Schema.lookup "deviceGroup" =
      some { Type_ := .TypeString, Optional := true, Default := some (.str "default") } ∧
    (resourceBigipSysFolder : Resource Unit).Schema.lookup "hidden" =
      some { Type_ := .TypeString, Optional := true, Default := some (.str "false") } ∧
    (resourceBigipSysFolder : Resource Unit).Schema.lookup "noRefCheck" =
      some { Type_ := .TypeString, Optional := true, Default := some (.str "") } ∧
    (resourceBigipSysFolder : Resource Unit).Schema.lookup "trafficGroup" =
      some { Type_ := .TypeString, Optional := true, Default := some (.str "default") } ∧
    schemaAccepts resourceBigipSysFolderSchema myfolderRaw = true ∧
    ResourceData.ofConfig resourceBigipSysFolderSchema myfolderRaw = none ∧
    schemaAccepts resourceBigipSysFolderSchema emptyNameRaw = true ∧
    ResourceData.ofConfig resourceBigipSysFolderSchema emptyNameRaw = some (declaredData "") ∧
    (declaredData "").Get "name" = .list [] ∧
    ((declaredData "").Get "name").assertString = none ∧
    (resourceBigipSysFolderCreate (declaredData "") (memoryClient [])).isNone = true ∧
    (resourceBigipSysFolderUpdate ((declaredData "").SetId "/Common/myfolder")
      (memoryClient [myfolder])).isNone = true ∧
    (resourceBigipSysFolderRead ((declaredData "").SetId "/Common/myfolder")
      (memoryClient [myfolder])).map (fun o => o.d.Get "name") = some (.list []) := by
  decide

end bigip
